import Mathlib

/-!
Verification of the CliMate server core against its design notes.

The Go sources embedded here:
- `server/internal/events/hub.go` : the per-client event hub (ring buffer,
  monotonic ids, subscriber fan-out).
- `server/internal/codex` session/manager : child-session lifecycle,
  JSON-RPC correlation, admission control.
- `server/internal/httpx/httpx.go` : the HTTP bridge status mapping.

Machine integers: the Go `uint64` event ids are modelled as `Nat` (no
overflow is reachable in any claim considered); the Go `int64` session
counter is modelled as `Int`.
-/

namespace CliMate

/-! ## Event hub (`server/internal/events/hub.go`) -/

/-- `events.Event`: id (assigned by the hub), type tag and data line. -/
structure Event where
  id : Nat
  type : String
  data : String
deriving DecidableEq, Repr

/-- `events.Hub` state.  Go keeps the subscriber set as
`map[chan Event]struct{}`; each channel is modelled by the list of events
currently enqueued to it, in enqueue order. -/
structure Hub where
  subs : List (List Event)
  closed : Bool
  capacity : Nat
  nextID : Nat
  buf : List Event
deriving DecidableEq, Repr

/-- `events.NewHub`: a non-positive requested capacity falls back to 256. -/
def NewHub (capacity : Int) : Hub :=
  let c : Nat := if capacity ≤ 0 then 256 else capacity.toNat
  { subs := [], closed := false, capacity := c, nextID := 0, buf := [] }

/-- `Hub.HighWaterMark`: greatest id assigned so far (0 if none). -/
def Hub.HighWaterMark (h : Hub) : Nat :=
  if h.nextID = 0 then 0 else h.nextID

/-- `Hub.SubscribeFrom`: on a closed hub, an already-closed empty channel.
Otherwise replay every buffered event with id above `lastEventID` into a
fresh queue, then register the queue.  The fresh Go channel has buffer
`capacity + 16` and the buffer never holds more than `capacity` events, so
the replay sends never block. -/
def Hub.SubscribeFrom (h : Hub) (lastEventID : Nat) : Hub × List Event :=
  if h.closed then (h, [])
  else
    let q := h.buf.filter fun evt => lastEventID < evt.id
    ({ h with subs := h.subs ++ [q] }, q)

/-- `Hub.Publish`: no-op on a closed hub; otherwise assign the next id,
append to the ring (the Go `copy` shift runs with `len(buf) = capacity`
and amounts to dropping the oldest entry), and non-blocking enqueue to
every subscriber (a full queue drops the event).  The returned option is
the id assigned to this publish, `none` when the hub was closed. -/
def Hub.Publish (h : Hub) (evt : Event) : Hub × Option Nat :=
  if h.closed then (h, none)
  else
    let nid := h.nextID + 1
    let e : Event := { evt with id := nid }
    let buf :=
      if h.buf.length < h.capacity then h.buf ++ [e]
      else if 0 < h.capacity then h.buf.drop 1 ++ [e]
      else h.buf
    let subs := h.subs.map fun q =>
      if q.length < h.capacity + 16 then q ++ [e] else q
    ({ h with nextID := nid, buf := buf, subs := subs }, some nid)

/-- `Hub.Close`: idempotent; marks closed, closes every queue, drops the
ring. -/
def Hub.Close (h : Hub) : Hub :=
  if h.closed then h
  else { h with closed := true, subs := [], buf := [] }

/-- A sequence of `Publish` calls, collecting the assigned ids in call
order. -/
def Hub.PublishSeq (h : Hub) : List Event → Hub × List (Option Nat)
  | [] => (h, [])
  | evt :: rest =>
    let p := h.Publish evt
    let r := p.1.PublishSeq rest
    (r.1, p.2 :: r.2)

/-- The events of `evts` with ids `n+1, n+2, ...` stamped on, exactly as a
hub with `nextID = n` assigns them. -/
def assignIDs : List Event → Nat → List Event
  | [], _ => []
  | evt :: rest, n => { evt with id := n + 1 } :: assignIDs rest (n + 1)

theorem assignIDs_length (evts : List Event) (n : Nat) :
    (assignIDs evts n).length = evts.length := by
  induction evts generalizing n with
  | nil => rfl
  | cons e rest ih => simp [assignIDs, ih]

theorem assignIDs_map_id (evts : List Event) (n : Nat) :
    (assignIDs evts n).map Event.id = List.range' (n + 1) evts.length := by
  induction evts generalizing n with
  | nil => rfl
  | cons e rest ih =>
    simp [assignIDs, List.range'_succ, ih]

theorem NewHub_capacity_pos (c : Int) : 0 < (NewHub c).capacity := by
  unfold NewHub
  by_cases h : c ≤ 0
  · simp [h]
  · simp [h]
    omega

/-- One open `Publish` step in closed form. -/
theorem Publish_open (h : Hub) (evt : Event) (hop : h.closed = false)
    (hlen : h.buf.length ≤ h.capacity) (hcap : 0 < h.capacity) :
    h.Publish evt =
      ({ h with nextID := h.nextID + 1,
                buf := (h.buf ++ [{ evt with id := h.nextID + 1 }]).drop
                  (h.buf.length + 1 - h.capacity),
                subs := h.subs.map fun q =>
                  if q.length < h.capacity + 16
                  then q ++ [{ evt with id := h.nextID + 1 }] else q },
       some (h.nextID + 1)) := by
  unfold Hub.Publish
  simp only [hop, Bool.false_eq_true, if_false]
  by_cases hlt : h.buf.length < h.capacity
  · have h0 : h.buf.length + 1 - h.capacity = 0 := by omega
    simp [hlt, h0]
  · have heq : h.buf.length = h.capacity := le_antisymm hlen (not_lt.mp hlt)
    have h1 : h.buf.length + 1 - h.capacity = 1 := by omega
    simp only [hlt, if_false, hcap, if_true, h1]
    rw [List.drop_append_of_le_length (by omega)]

/-- Closed form for a run of open publishes: the hub stays open, the
capacity is unchanged, the id counter advances by the number of publishes,
the ring holds the most recent window of the stamped history, every
subscriber queue receives the stamped events up to its free space, and the
assigned ids are consecutive. -/
theorem PublishSeq_open (evts : List Event) (h : Hub) (hop : h.closed = false)
    (hlen : h.buf.length ≤ h.capacity) (hcap : 0 < h.capacity) :
    (h.PublishSeq evts).1.closed = false ∧
    (h.PublishSeq evts).1.capacity = h.capacity ∧
    (h.PublishSeq evts).1.nextID = h.nextID + evts.length ∧
    (h.PublishSeq evts).1.buf =
      (h.buf ++ assignIDs evts h.nextID).drop
        (h.buf.length + evts.length - h.capacity) ∧
    (h.PublishSeq evts).1.subs =
      h.subs.map (fun q =>
        q ++ (assignIDs evts h.nextID).take (h.capacity + 16 - q.length)) ∧
    (h.PublishSeq evts).2 = (List.range' (h.nextID + 1) evts.length).map some := by
  induction evts generalizing h with
  | nil =>
    have h0 : h.buf.length - h.capacity = 0 := by omega
    simp [Hub.PublishSeq, assignIDs, hop, h0]
  | cons e rest ih =>
    have hstep := Publish_open h e hop hlen hcap
    set e1 : Event := { e with id := h.nextID + 1 } with he1
    have hbuf1 : (h.Publish e).1.buf =
        (h.buf ++ [e1]).drop (h.buf.length + 1 - h.capacity) := by
      rw [hstep]
    have hlen1 : (h.Publish e).1.buf.length ≤ h.capacity := by
      rw [hbuf1]
      simp only [List.length_drop, List.length_append, List.length_cons,
        List.length_nil]
      omega
    have hcap1 : (h.Publish e).1.capacity = h.capacity := by rw [hstep]
    have hop1 : (h.Publish e).1.closed = false := by rw [hstep]; exact hop
    have hnext1 : (h.Publish e).1.nextID = h.nextID + 1 := by rw [hstep]
    have hsubs1 : (h.Publish e).1.subs =
        h.subs.map fun q =>
          if q.length < h.capacity + 16 then q ++ [e1] else q := by
      rw [hstep]
    have ih1 := ih (h.Publish e).1 hop1 (by rw [hcap1]; exact hlen1)
      (by rw [hcap1]; exact hcap)
    obtain ⟨ic, icap, inext, ibuf, isubs, iout⟩ := ih1
    rw [hcap1] at icap ibuf isubs
    rw [hnext1] at inext ibuf isubs iout
    refine ⟨?_, ?_, ?_, ?_, ?_, ?_⟩
    · simpa [Hub.PublishSeq] using ic
    · simpa [Hub.PublishSeq] using icap
    · simp only [Hub.PublishSeq]
      rw [inext]
      simp only [List.length_cons]
      omega
    · simp only [Hub.PublishSeq]
      rw [ibuf, hbuf1]
      have hk : h.buf.length + 1 - h.capacity ≤ (h.buf ++ [e1]).length := by
        simp only [List.length_append, List.length_cons, List.length_nil]
        omega
      rw [← List.drop_append_of_le_length hk, List.drop_drop]
      have hasgn : h.buf ++ [e1] ++ assignIDs rest (h.nextID + 1)
          = h.buf ++ assignIDs (e :: rest) h.nextID := by
        simp [assignIDs, he1]
      rw [hasgn]
      congr 1
      simp only [List.length_drop, List.length_append, List.length_cons,
        List.length_nil]
      omega
    · simp only [Hub.PublishSeq]
      rw [isubs, hsubs1, List.map_map]
      apply List.map_congr_left
      intro q _
      simp only [Function.comp]
      by_cases hq : q.length < h.capacity + 16
      · have hpos : h.capacity + 16 - q.length = (h.capacity + 16 - (q ++ [e1]).length) + 1 := by
          simp; omega
        simp only [hq, if_true, hpos]
        simp [assignIDs, he1, List.take_succ_cons]
      · have hz : h.capacity + 16 - q.length = 0 := by omega
        simp only [hq, if_false, hz]
        have hz2 : h.capacity + 16 - q.length = 0 := hz
        simp [assignIDs, hz]
    · simp only [Hub.PublishSeq]
      rw [iout]
      have : (h.Publish e).2 = some (h.nextID + 1) := by rw [hstep]
      rw [this]
      simp [List.range'_succ, List.length_cons]

/-- C1: for every sequence of publish calls on a fresh hub, the assigned
event ids are exactly 1, 2, ..., n in publish order: contiguous, ascending,
none reused and none skipped. -/
theorem publish_ids_contiguous (capacity : Int) (evts : List Event) :
    ((NewHub capacity).PublishSeq evts).2 =
      (List.range' 1 evts.length).map some := by
  have h := PublishSeq_open evts (NewHub capacity) rfl
    (by simp [NewHub]) (NewHub_capacity_pos capacity)
  have hnext : (NewHub capacity).nextID = 0 := rfl
  rw [hnext] at h
  simpa using h.2.2.2.2.2

/-- C10: publishing to a closed hub is a silent no-op: no id is assigned,
the ring, the id counter, the subscriber queues and the high-water mark are
all unchanged. -/
theorem publish_closed_noop (h : Hub) (evt : Event) (hc : h.closed = true) :
    h.Publish evt = (h, none) ∧
    (h.Publish evt).1.buf = h.buf ∧
    (h.Publish evt).1.nextID = h.nextID ∧
    (h.Publish evt).1.subs = h.subs ∧
    (h.Publish evt).1.HighWaterMark = h.HighWaterMark := by
  simp [Hub.Publish, hc]

/-- Witness for C10 at a concrete closed hub. -/
theorem publish_closed_noop_witness :
    (NewHub 4).Close.Publish { id := 0, type := "t", data := "d" }
        = ((NewHub 4).Close, none) ∧
    ((NewHub 4).Close.Publish { id := 0, type := "t", data := "d" }).1.buf
        = (NewHub 4).Close.buf ∧
    ((NewHub 4).Close.Publish { id := 0, type := "t", data := "d" }).1.nextID
        = (NewHub 4).Close.nextID ∧
    ((NewHub 4).Close.Publish { id := 0, type := "t", data := "d" }).1.subs
        = (NewHub 4).Close.subs ∧
    ((NewHub 4).Close.Publish { id := 0, type := "t", data := "d" }).1.HighWaterMark
        = (NewHub 4).Close.HighWaterMark :=
  publish_closed_noop (NewHub 4).Close { id := 0, type := "t", data := "d" } (by decide)

theorem range'_drop (m s n : Nat) :
    (List.range' s n).drop m = List.range' (s + m) (n - m) := by
  induction m generalizing s n with
  | zero => simp
  | succ m ih =>
    cases n with
    | zero => simp
    | succ n =>
      rw [List.range'_succ]
      simp only [List.drop_succ_cons]
      rw [ih (s + 1) n]
      have h1 : s + 1 + m = s + (m + 1) := by omega
      have h2 : n - m = n + 1 - (m + 1) := by omega
      rw [h1, h2]

/-- State of the fresh hub `NewHub c` after `evts` publishes, in closed
form (`0 < c` keeps the requested capacity). -/
theorem publishSeq_fresh (c : Nat) (evts : List Event) (hc : 0 < c) :
    ((NewHub c).PublishSeq evts).1.closed = false ∧
    ((NewHub c).PublishSeq evts).1.capacity = c ∧
    ((NewHub c).PublishSeq evts).1.nextID = evts.length ∧
    ((NewHub c).PublishSeq evts).1.buf =
      (assignIDs evts 0).drop (evts.length - c) ∧
    ((NewHub c).PublishSeq evts).1.subs = [] := by
  have hcap : (NewHub (c : Int)).capacity = c := by
    unfold NewHub
    have h1 : ¬((c : Int) ≤ 0) := by exact_mod_cast Nat.not_le.mpr hc
    simp [h1]
  have hps := PublishSeq_open evts (NewHub c) rfl (by simp [NewHub])
    (NewHub_capacity_pos c)
  obtain ⟨h1, h2, h3, h4, h5, _⟩ := hps
  have hbuf0 : (NewHub (c : Int)).buf = [] := rfl
  have hnext0 : (NewHub (c : Int)).nextID = 0 := rfl
  have hsubs0 : (NewHub (c : Int)).subs = [] := rfl
  rw [hcap] at h2 h4
  rw [hnext0] at h3 h4 h5
  rw [hbuf0] at h4
  rw [hsubs0] at h5
  refine ⟨h1, h2, by simpa using h3, by simpa using h4, by simpa using h5⟩

/-- The ids stored in the fresh hub's ring are the window of consecutive
ids ending at the high-water mark. -/
theorem publishSeq_fresh_bufIDs (c : Nat) (evts : List Event) (hc : 0 < c) :
    ((NewHub c).PublishSeq evts).1.buf.map Event.id =
      List.range' (1 + (evts.length - c)) (evts.length - (evts.length - c)) := by
  obtain ⟨-, -, -, h4, -⟩ := publishSeq_fresh c evts hc
  rw [h4, List.map_drop, assignIDs_map_id, range'_drop]

/-- C3: on the hub state reached by any sequence of publishes on a fresh
hub of ring capacity `c`, `SubscribeFrom k` synchronously enqueues exactly
the buffered events with id strictly above `k`, in ascending id order, and
later publishes append to the registered queue strictly after the replay;
after more than `c` publishes the replay from 0 is exactly the last `c`
published events, and a `k2` at or below the ring floor replays the whole
floor-to-head buffer. -/
theorem subscribeFrom_replay (c k k2 : Nat) (evts more : List Event)
    (hc : 0 < c) :
    ((((NewHub c).PublishSeq evts).1.SubscribeFrom k).2 =
      ((NewHub c).PublishSeq evts).1.buf.filter fun evt => k < evt.id) ∧
    ((((NewHub c).PublishSeq evts).1.SubscribeFrom k).2.map Event.id).Pairwise
      (· < ·) ∧
    (((((NewHub c).PublishSeq evts).1.SubscribeFrom k).1.PublishSeq more).1.subs
      = [(((NewHub c).PublishSeq evts).1.SubscribeFrom k).2 ++
          (assignIDs more evts.length).take
            (c + 16 - (((NewHub c).PublishSeq evts).1.SubscribeFrom k).2.length)]) ∧
    (c < evts.length →
      (((NewHub c).PublishSeq evts).1.SubscribeFrom 0).2 =
          (assignIDs evts 0).drop (evts.length - c) ∧
        (((NewHub c).PublishSeq evts).1.SubscribeFrom 0).2.length = c) ∧
    (k2 + c ≤ evts.length →
      (((NewHub c).PublishSeq evts).1.SubscribeFrom k2).2 =
        ((NewHub c).PublishSeq evts).1.buf) := by
  obtain ⟨hcl, hcap, hnext, hbuf, hsubs⟩ := publishSeq_fresh c evts hc
  have hids := publishSeq_fresh_bufIDs c evts hc
  have hfrom : ∀ j, (((NewHub c).PublishSeq evts).1.SubscribeFrom j).2 =
      ((NewHub c).PublishSeq evts).1.buf.filter fun evt => j < evt.id := by
    intro j
    unfold Hub.SubscribeFrom
    simp [hcl]
  have hid_lb : ∀ e, e ∈ ((NewHub c).PublishSeq evts).1.buf →
      1 + (evts.length - c) ≤ e.id := by
    intro e he
    have : e.id ∈ ((NewHub c).PublishSeq evts).1.buf.map Event.id :=
      List.mem_map_of_mem Event.id he
    rw [hids] at this
    exact (List.mem_range'_1.mp this).1
  refine ⟨hfrom k, ?_, ?_, ?_, ?_⟩
  · rw [hfrom k]
    have hsub : List.Sublist
        ((((NewHub c).PublishSeq evts).1.buf.filter
          fun evt => k < evt.id).map Event.id)
        (((NewHub c).PublishSeq evts).1.buf.map Event.id) :=
      (List.filter_sublist _).map Event.id
    refine List.Pairwise.sublist hsub ?_
    rw [hids]
    exact List.pairwise_lt_range' _ _
  · have hq := hfrom k
    set H := ((NewHub c).PublishSeq evts).1 with hH
    set q := (H.SubscribeFrom k).2 with hqdef
    have hstate : (H.SubscribeFrom k).1 = { H with subs := H.subs ++ [q] } := by
      unfold Hub.SubscribeFrom
      simp [hcl, hqdef, Hub.SubscribeFrom]
    have hqlen : q.length ≤ H.buf.length := by
      rw [hqdef]
      unfold Hub.SubscribeFrom
      simp [hcl]
      exact List.length_filter_le _ _
    have hbuflen : H.buf.length ≤ c := by
      rw [hbuf]
      simp only [List.length_drop, assignIDs_length]
      omega
    have hmore := PublishSeq_open more (H.SubscribeFrom k).1
      (by rw [hstate]; exact hcl)
      (by rw [hstate]; simpa [hcap] using le_trans (by simp) hbuflen)
      (by rw [hstate]; simp only; rw [hcap]; exact hc)
    obtain ⟨-, -, -, -, hm5, -⟩ := hmore
    rw [hm5, hstate]
    simp only [hsubs, hcap, hnext, List.nil_append, List.map_cons, List.map_nil]
  · intro hlt
    constructor
    · rw [hfrom 0]
      rw [List.filter_eq_self.mpr ?_]
      · exact hbuf
      · intro e he
        have := hid_lb e he
        simp only [decide_eq_true_eq]
        omega
    · rw [hfrom 0, List.filter_eq_self.mpr ?_]
      · rw [hbuf]
        simp only [List.length_drop, assignIDs_length]
        omega
      · intro e he
        have := hid_lb e he
        simp only [decide_eq_true_eq]
        omega
  · intro hk2
    rw [hfrom k2]
    apply List.filter_eq_self.mpr
    intro e he
    have := hid_lb e he
    simp only [decide_eq_true_eq]
    omega

/-- Witness for C3 at capacity 2 with three publishes and one later
publish. -/
theorem subscribeFrom_replay_witness :
    ((((NewHub 2).PublishSeq
        [{ id := 0, type := "a", data := "1" },
         { id := 0, type := "b", data := "2" },
         { id := 0, type := "c", data := "3" }]).1.SubscribeFrom 1).2 =
      ((NewHub 2).PublishSeq
        [{ id := 0, type := "a", data := "1" },
         { id := 0, type := "b", data := "2" },
         { id := 0, type := "c", data := "3" }]).1.buf.filter
        fun evt => 1 < evt.id) ∧
    ((((NewHub 2).PublishSeq
        [{ id := 0, type := "a", data := "1" },
         { id := 0, type := "b", data := "2" },
         { id := 0, type := "c", data := "3" }]).1.SubscribeFrom 1).2.map
        Event.id).Pairwise (· < ·) ∧
    (((((NewHub 2).PublishSeq
        [{ id := 0, type := "a", data := "1" },
         { id := 0, type := "b", data := "2" },
         { id := 0, type := "c", data := "3" }]).1.SubscribeFrom
          1).1.PublishSeq [{ id := 0, type := "d", data := "4" }]).1.subs
      = [(((NewHub 2).PublishSeq
          [{ id := 0, type := "a", data := "1" },
           { id := 0, type := "b", data := "2" },
           { id := 0, type := "c", data := "3" }]).1.SubscribeFrom 1).2 ++
          (assignIDs [{ id := 0, type := "d", data := "4" }] 3).take
            (2 + 16 - (((NewHub 2).PublishSeq
              [{ id := 0, type := "a", data := "1" },
               { id := 0, type := "b", data := "2" },
               { id := 0, type := "c", data := "3" }]).1.SubscribeFrom
                1).2.length)]) ∧
    (2 < 3 →
      (((NewHub 2).PublishSeq
          [{ id := 0, type := "a", data := "1" },
           { id := 0, type := "b", data := "2" },
           { id := 0, type := "c", data := "3" }]).1.SubscribeFrom 0).2 =
          (assignIDs
            [{ id := 0, type := "a", data := "1" },
             { id := 0, type := "b", data := "2" },
             { id := 0, type := "c", data := "3" }] 0).drop (3 - 2) ∧
        (((NewHub 2).PublishSeq
          [{ id := 0, type := "a", data := "1" },
           { id := 0, type := "b", data := "2" },
           { id := 0, type := "c", data := "3" }]).1.SubscribeFrom 0).2.length
          = 2) ∧
    (0 + 2 ≤ 3 →
      (((NewHub 2).PublishSeq
          [{ id := 0, type := "a", data := "1" },
           { id := 0, type := "b", data := "2" },
           { id := 0, type := "c", data := "3" }]).1.SubscribeFrom 0).2 =
        ((NewHub 2).PublishSeq
          [{ id := 0, type := "a", data := "1" },
           { id := 0, type := "b", data := "2" },
           { id := 0, type := "c", data := "3" }]).1.buf) := by
  have h := subscribeFrom_replay 2 1 0
    [{ id := 0, type := "a", data := "1" },
     { id := 0, type := "b", data := "2" },
     { id := 0, type := "c", data := "3" }]
    [{ id := 0, type := "d", data := "4" }] (by decide)
  simpa using h

/-! ## Child session (`server/internal/codex`, session side)

JSON values as they come out of `encoding/json` decoding with
`decoder.UseNumber()`: every JSON number decodes to `json.Number`, a
string holding the raw literal.  Both decode paths that feed
`jsonIDKey` — `httpx.decodeJSON` for inbound payloads and
`extractIDKey` for child stdout lines — set `UseNumber`, so the
`float64` branch of the Go `jsonIDKey` (shortest-form `FormatFloat`)
is unreachable for decoded values and floating point stays out of the
model.  A JSON object is an association list of fields. -/

inductive GoVal where
  | str (s : String)
  | num (literal : String)
  | boolean (b : Bool)
  | null
  | arr (elems : List GoVal)
  | obj (fields : List (String × GoVal))

/-- A decoded JSON object (`map[string]any` after `UseNumber` decoding). -/
abbrev Payload := List (String × GoVal)

/-- Go map lookup `payload[k]`: the value if the field is present. -/
def getField (p : Payload) (k : String) : Option GoVal :=
  (p.find? fun kv => kv.1 == k).map fun kv => kv.2

/-- `jsonIDKey`: canonical correlation key of an id value, plus whether the
value is usable as an id.  Strings pass through; a `json.Number` renders as
its literal text (`id.String()`); anything else is not an id. -/
def jsonIDKey : Option GoVal → String × Bool
  | some (GoVal.str s) => (s, true)
  | some (GoVal.num lit) => (lit, true)
  | _ => ("", false)

/-- `extractIDKey`: decode a stdout line as a JSON object (`none` models a
line that does not decode) and canonicalize its `id` field. -/
def extractIDKey (line : Option Payload) : String × Bool :=
  match line with
  | none => ("", false)
  | some payload => jsonIDKey (getField payload "id")

/-- `payload["method"].(string)`: the method as a string, "" when the
field is absent or not a string (Go type assertion with `_` for `ok`). -/
def methodString (p : Payload) : String :=
  match getField p "method" with
  | some (GoVal.str m) => m
  | _ => ""

/-- Only a string or a `json.Number` is usable as a correlation id. -/
def isStrOrNum : GoVal → Bool
  | GoVal.str _ => true
  | GoVal.num _ => true
  | _ => false

/-- `map[string]chan []byte` insert: the key set after
`s.pending[idKey] = respCh` (re-registering an existing key overwrites the
channel; the key set gains the key once). -/
def pendingAdd (pending : List String) (k : String) : List String :=
  if pending.contains k then pending else pending ++ [k]

/-- `delete(s.pending, idKey)`: the key is removed entirely. -/
def pendingRemove (pending : List String) (k : String) : List String :=
  pending.filter fun x => !(x == k)

/-- The mutable part of `codex.Session` that the claims touch: the dead
flag, the pending correlation keys, the per-client hub, the lines written
to the child's stdin (in write order), and the initialize cache. -/
structure SessionState where
  dead : Bool
  pending : List String
  hub : Hub
  stdinLines : List Payload
  initialized : Bool
  initializeReply : String

/-- The synthesized reply for a repeated `initialize`: the struct literal
marshalled in `SendRPC` (jsonrpc "2.0", the caller's id, the cached result
bytes). -/
structure InitEnvelope where
  jsonrpc : String
  id : GoVal
  result : String

/-- What `SendRPC` does before (or instead of) blocking in its `select`. -/
inductive StartResult where
  | notRunning
  | cachedInit (envelope : InitEnvelope)
  | ack
  | waiting (idKey : String)

/-- `Session.SendRPC` up to the `select`: dead check, initialize-cache
fast path, request/notification classification, sink registration and the
stdin write.  `json.Marshal` of an already-decoded payload cannot fail and
the stdin write error path is not modelled; a notification returns the
constant acknowledgement, a request returns `waiting` on its registered
key. -/
def sendRPCStart (s : SessionState) (payload : Payload) :
    SessionState × StartResult :=
  if s.dead then (s, StartResult.notRunning)
  else if methodString payload = "initialize" ∧ (getField payload "id").isSome
      ∧ s.initialized = true ∧ 0 < s.initializeReply.length then
    (s, StartResult.cachedInit
      { jsonrpc := "2.0", id := (getField payload "id").getD GoVal.null,
        result := s.initializeReply })
  else
    let r := jsonIDKey (getField payload "id")
    let isRequest := (getField payload "method").isSome && r.2
    let s1 := if isRequest then
        { s with pending := pendingAdd s.pending r.1 } else s
    let s2 := { s1 with stdinLines := s1.stdinLines ++ [payload] }
    if isRequest then (s2, StartResult.waiting r.1) else (s2, StartResult.ack)

/-- The `result`/`error` fields of a response line as decoded by the
anonymous struct in `SendRPC` ("" models an absent `json.RawMessage`). -/
structure DecodedResp where
  result : String
  error : String

/-- The `select` branch where the pending sink delivers a response: for a
first successful `initialize` (decodes, empty error, non-empty result) the
result bytes are cached; the response bytes are returned unchanged. -/
def sendRPCResponse (s : SessionState) (payload : Payload) (resp : String)
    (decoded : Option DecodedResp) : SessionState × String :=
  if methodString payload = "initialize" then
    match decoded with
    | some d =>
      if d.error = "" ∧ d.result ≠ "" then
        ({ s with initialized := true, initializeReply := d.result }, resp)
      else (s, resp)
    | none => (s, resp)
  else (s, resp)

/-- Errors `SendRPC` can return from the `select`. -/
inductive RPCErr where
  | notRunning
  | timeout
deriving DecidableEq, Repr

/-- The `select` branch where the timeout context fires: the pending entry
is removed and the call fails with the timeout error. -/
def sendRPCTimeout (s : SessionState) (idKey : String) :
    SessionState × RPCErr :=
  ({ s with pending := pendingRemove s.pending idKey }, RPCErr.timeout)

/-- `withTimeout`, reduced to the effective deadline it installs:
`ctxDeadline` is the caller context's deadline (`ctx.Deadline()` with its
`ok` flag as the option).  When the caller supplied a deadline the Go code
wraps the context with `WithCancel`, keeping the caller's deadline;
only otherwise does it install the default `duration`. -/
def withTimeout (ctxDeadline : Option Nat) (duration : Nat) : Nat :=
  match ctxDeadline with
  | some d => d
  | none => duration

/-- One iteration of `readStdoutLoop` for one stdout line: the line is
always published on the hub with type tag `codex/stdout`; if it decodes
with a usable id and a sink is pending under that key, the entry is removed
and the line handed to the sink (the returned option is the delivered
key). -/
def readLine (s : SessionState) (line : String) (decoded : Option Payload) :
    SessionState × Option String :=
  let hub1 := (s.hub.Publish { id := 0, type := "codex/stdout", data := line }).1
  let r := extractIDKey decoded
  if r.2 = false then ({ s with hub := hub1 }, none)
  else if s.pending.contains r.1 then
    ({ s with hub := hub1, pending := pendingRemove s.pending r.1 }, some r.1)
  else ({ s with hub := hub1 }, none)

theorem pendingRemove_contains (l : List String) (k : String) :
    (pendingRemove l k).contains k = false := by
  induction l with
  | nil => rfl
  | cons x xs ih =>
    unfold pendingRemove at ih ⊢
    by_cases hx : x = k
    · rw [List.filter_cons_of_neg (by simp [hx])]
      exact ih
    · rw [List.filter_cons_of_pos (by simp [hx])]
      rw [List.contains_cons, ih]
      simp only [Bool.or_false, beq_eq_false_iff_ne, ne_eq]
      exact fun hk => hx (Eq.symm hk)

theorem string_length_pos_of_ne (s : String) (h : s ≠ "") : 0 < s.length := by
  cases s with
  | mk data =>
    cases data with
    | nil => simp at h
    | cons c cs => simp [String.length]

/-- An id value that is neither a string nor a number canonicalizes to the
unusable key. -/
theorem jsonIDKey_not_usable (v : GoVal) (h : isStrOrNum v = false) :
    jsonIDKey (some v) = ("", false) := by
  cases v <;> simp_all [isStrOrNum, jsonIDKey]

/-- `SendRPC` on a live session, outside the initialize-cache fast path,
for a payload with a method and a usable id: the sink is registered under
the canonical key, the line is written, and the call waits on that key. -/
theorem sendRPCStart_request (s : SessionState) (payload : Payload)
    (hdead : s.dead = false)
    (hexc : ¬(methodString payload = "initialize" ∧ (getField payload "id").isSome
      ∧ s.initialized = true ∧ 0 < s.initializeReply.length))
    (hm : (getField payload "method").isSome = true)
    (hid : (jsonIDKey (getField payload "id")).2 = true) :
    sendRPCStart s payload =
      ({ s with
          pending := pendingAdd s.pending (jsonIDKey (getField payload "id")).1,
          stdinLines := s.stdinLines ++ [payload] },
       StartResult.waiting (jsonIDKey (getField payload "id")).1) := by
  unfold sendRPCStart
  rw [if_neg (by simp [hdead]), if_neg hexc]
  simp only [hm, hid, Bool.and_self, if_true, Bool.true_and]

/-- `SendRPC` on a live session, outside the initialize-cache fast path,
for a payload whose id does not canonicalize: no sink, the line is still
written, the constant acknowledgement is returned. -/
theorem sendRPCStart_notification (s : SessionState) (payload : Payload)
    (hdead : s.dead = false)
    (hexc : ¬(methodString payload = "initialize" ∧ (getField payload "id").isSome
      ∧ s.initialized = true ∧ 0 < s.initializeReply.length))
    (hid : (jsonIDKey (getField payload "id")).2 = false) :
    sendRPCStart s payload =
      ({ s with stdinLines := s.stdinLines ++ [payload] }, StartResult.ack) := by
  unfold sendRPCStart
  rw [if_neg (by simp [hdead]), if_neg hexc]
  simp only [hid, Bool.and_false, if_false, Bool.false_eq_true]

/-- A stdout line whose canonical key has no pending sink is only
published: nothing is delivered and the hub receives exactly one event. -/
theorem readLine_uncorrelated (s : SessionState) (line : String)
    (p : Option Payload)
    (h : s.pending.contains (extractIDKey p).1 = false) :
    (readLine s line p).2 = none ∧
    (readLine s line p).1.hub =
      (s.hub.Publish { id := 0, type := "codex/stdout", data := line }).1 := by
  unfold readLine
  by_cases hr : (extractIDKey p).2 = false
  · simp [hr]
  · have hmem : ¬((extractIDKey p).1 ∈ s.pending) := by simpa using h
    simp [hr, hmem]

/-- A stdout line is delivered to a sink exactly when its canonical key is
usable and equals a registered pending key. -/
theorem readLine_correlates (s : SessionState) (line : String) (p : Payload) :
    (readLine s line (some p)).2 =
      if (extractIDKey (some p)).2 = true ∧
          s.pending.contains (extractIDKey (some p)).1 = true
      then some (extractIDKey (some p)).1 else none := by
  unfold readLine
  by_cases h2 : (extractIDKey (some p)).2 = true
  · by_cases h3 : s.pending.contains (extractIDKey (some p)).1 = true
    · have hmem : (extractIDKey (some p)).1 ∈ s.pending := by simpa using h3
      simp [h2, h3, hmem]
    · have hmem : ¬((extractIDKey (some p)).1 ∈ s.pending) := by simpa using h3
      simp [h2, h3, hmem]
  · simp [h2]

/-- Sample fixtures used by the concrete witnesses. -/
def sampleSession : SessionState :=
  { dead := false, pending := [], hub := NewHub 4, stdinLines := [],
    initialized := false, initializeReply := "" }

def samplePayload : Payload :=
  [("method", GoVal.str "ping"), ("id", GoVal.num "1")]

def sampleResponse : Payload := [("id", GoVal.num "2")]

def sampleInit : Payload :=
  [("method", GoVal.str "initialize"), ("id", GoVal.num "1")]

/-- C4 counterexample: with a caller-supplied deadline of 60 s the
effective deadline is 60 s, not the earlier of 30 s and 60 s. -/
theorem withTimeout_counterexample :
    withTimeout (some 60) 30 = 60 ∧ withTimeout (some 60) 30 ≠ min 30 60 := by
  decide

/-- C4 (amended): the effective deadline is the caller-supplied one when
the caller context has a deadline (even when later than 30 s), otherwise
the 30-second default; when the deadline elapses on a registered request
the pending entry is removed and the call fails with the timeout error, so
a late response line finds no sink and is only published as an event. -/
theorem sendRPC_timeout_behavior (d : Nat) (s s2 : SessionState)
    (payload p : Payload) (line : String)
    (hdead : s.dead = false)
    (hexc : ¬(methodString payload = "initialize" ∧ (getField payload "id").isSome
      ∧ s.initialized = true ∧ 0 < s.initializeReply.length))
    (hm : (getField payload "method").isSome = true)
    (hid : (jsonIDKey (getField payload "id")).2 = true)
    (hlate : s2.pending.contains (extractIDKey (some p)).1 = false) :
    withTimeout none 30 = 30 ∧
    withTimeout (some d) 30 = d ∧
    sendRPCStart s payload =
      ({ s with
          pending := pendingAdd s.pending (jsonIDKey (getField payload "id")).1,
          stdinLines := s.stdinLines ++ [payload] },
       StartResult.waiting (jsonIDKey (getField payload "id")).1) ∧
    (sendRPCTimeout (sendRPCStart s payload).1
      (jsonIDKey (getField payload "id")).1).2 = RPCErr.timeout ∧
    ((sendRPCTimeout (sendRPCStart s payload).1
      (jsonIDKey (getField payload "id")).1).1.pending.contains
        (jsonIDKey (getField payload "id")).1) = false ∧
    (readLine s2 line (some p)).2 = none ∧
    (readLine s2 line (some p)).1.hub =
      (s2.hub.Publish { id := 0, type := "codex/stdout", data := line }).1 := by
  have hstart := sendRPCStart_request s payload hdead hexc hm hid
  have hun := readLine_uncorrelated s2 line (some p) hlate
  refine ⟨rfl, rfl, hstart, rfl, ?_, hun.1, hun.2⟩
  unfold sendRPCTimeout
  exact pendingRemove_contains _ _

/-- Witness for C4 at concrete inputs. -/
theorem sendRPC_timeout_behavior_witness :
    withTimeout none 30 = 30 ∧
    withTimeout (some 60) 30 = 60 ∧
    sendRPCStart sampleSession samplePayload =
      ({ sampleSession with
          pending := pendingAdd sampleSession.pending
            (jsonIDKey (getField samplePayload "id")).1,
          stdinLines := sampleSession.stdinLines ++ [samplePayload] },
       StartResult.waiting (jsonIDKey (getField samplePayload "id")).1) ∧
    (sendRPCTimeout (sendRPCStart sampleSession samplePayload).1
      (jsonIDKey (getField samplePayload "id")).1).2 = RPCErr.timeout ∧
    ((sendRPCTimeout (sendRPCStart sampleSession samplePayload).1
      (jsonIDKey (getField samplePayload "id")).1).1.pending.contains
        (jsonIDKey (getField samplePayload "id")).1) = false ∧
    (readLine sampleSession "late" (some sampleResponse)).2 = none ∧
    (readLine sampleSession "late" (some sampleResponse)).1.hub =
      (sampleSession.hub.Publish
        { id := 0, type := "codex/stdout", data := "late" }).1 :=
  sendRPC_timeout_behavior 60 sampleSession sampleSession samplePayload
    sampleResponse "late" rfl (by decide) (by decide) (by decide) (by decide)

/-- C5: once a first `initialize` has resolved with a non-empty result and
an empty error, the cache is set; on any live session whose cache is set,
every `initialize` call carrying an id returns the synthesized envelope
(jsonrpc "2.0", the caller's id, the cached result) with the session state
untouched — in particular nothing is written to the child — and no
`SendRPC` entry path ever clears the cache. -/
theorem initialize_cache_equiv (s0 s : SessionState) (payload payload2 q : Payload)
    (respBytes res : String) (callerID : GoVal)
    (hm1 : methodString payload = "initialize")
    (hres : res ≠ "")
    (hdead : s.dead = false)
    (hinit : s.initialized = true)
    (hrep : s.initializeReply = res)
    (hm2 : methodString payload2 = "initialize")
    (hid2 : getField payload2 "id" = some callerID) :
    (sendRPCResponse s0 payload respBytes (some { result := res, error := "" })).1
      = { s0 with initialized := true, initializeReply := res } ∧
    sendRPCStart s payload2 =
      (s, StartResult.cachedInit
        { jsonrpc := "2.0", id := callerID, result := res }) ∧
    (sendRPCStart s q).1.initialized = s.initialized ∧
    (sendRPCStart s q).1.initializeReply = s.initializeReply := by
  refine ⟨?_, ?_, ?_, ?_⟩
  · simp [sendRPCResponse, hm1, hres]
  · unfold sendRPCStart
    rw [if_neg (by simp [hdead])]
    rw [if_pos ⟨hm2, by rw [hid2]; rfl, hinit,
      by rw [hrep]; exact string_length_pos_of_ne res hres⟩]
    rw [hid2, hrep]
    rfl
  · unfold sendRPCStart
    by_cases h1 : s.dead = true
    · simp [h1]
    · simp only [h1, if_false]
      by_cases h2 : methodString q = "initialize" ∧ (getField q "id").isSome
          ∧ s.initialized = true ∧ 0 < s.initializeReply.length
      · simp [h2]
      · simp only [h2, if_false]
        by_cases h3 : ((getField q "method").isSome
            && (jsonIDKey (getField q "id")).2) = true
        · simp [h3]
        · simp [h3]
  · unfold sendRPCStart
    by_cases h1 : s.dead = true
    · simp [h1]
    · simp only [h1, if_false]
      by_cases h2 : methodString q = "initialize" ∧ (getField q "id").isSome
          ∧ s.initialized = true ∧ 0 < s.initializeReply.length
      · simp [h2]
      · simp only [h2, if_false]
        by_cases h3 : ((getField q "method").isSome
            && (jsonIDKey (getField q "id")).2) = true
        · simp [h3]
        · simp [h3]

/-- Witness for C5 at concrete inputs. -/
theorem initialize_cache_equiv_witness :
    (sendRPCResponse sampleSession sampleInit "resp"
        (some { result := "rj", error := "" })).1
      = { sampleSession with initialized := true, initializeReply := "rj" } ∧
    sendRPCStart
        { sampleSession with initialized := true, initializeReply := "rj" }
        sampleInit =
      ({ sampleSession with initialized := true, initializeReply := "rj" },
       StartResult.cachedInit
        { jsonrpc := "2.0", id := GoVal.num "1", result := "rj" }) ∧
    (sendRPCStart
        { sampleSession with initialized := true, initializeReply := "rj" }
        samplePayload).1.initialized
      = ({ sampleSession with
            initialized := true, initializeReply := "rj" } : SessionState).initialized ∧
    (sendRPCStart
        { sampleSession with initialized := true, initializeReply := "rj" }
        samplePayload).1.initializeReply
      = ({ sampleSession with
            initialized := true, initializeReply := "rj" } : SessionState).initializeReply :=
  initialize_cache_equiv sampleSession
    { sampleSession with initialized := true, initializeReply := "rj" }
    sampleInit sampleInit samplePayload "resp" "rj" (GoVal.num "1")
    (by decide) (by decide) rfl rfl rfl (by decide) rfl

/-- C6 counterexample: the canonical key of the string id "7" equals the
canonical key of the numeric id 7, so numeric and string ids collide; and
the numeric literal 1.0, an integer, keeps its decimal point rather than
taking its shortest decimal form. -/
theorem jsonIDKey_collision_counterexample :
    jsonIDKey (some (GoVal.str "7")) = jsonIDKey (some (GoVal.num "7")) ∧
    jsonIDKey (some (GoVal.num "1.0")) ≠ ("1", true) := by
  decide

/-- C6 (amended): the correlation key is computed by the same
canonicalization on the send path and on the stdout-reader path: string
ids pass through unchanged, number ids pass through as their decoded
literal text, the reader derives the key of a decoded line by the same
function the send path registers under, and a stdout line is delivered to
a sink exactly when its canonical key is usable and string-equal to a
registered pending key (so a numeric id and a string id with the same text
share one key). -/
theorem idKey_canonical_both_paths (s s2 : SessionState) (payload p : Payload)
    (line t : String)
    (hdead : s.dead = false)
    (hexc : ¬(methodString payload = "initialize" ∧ (getField payload "id").isSome
      ∧ s.initialized = true ∧ 0 < s.initializeReply.length))
    (hm : (getField payload "method").isSome = true)
    (hid : (jsonIDKey (getField payload "id")).2 = true) :
    jsonIDKey (some (GoVal.str t)) = (t, true) ∧
    jsonIDKey (some (GoVal.num t)) = (t, true) ∧
    extractIDKey (some p) = jsonIDKey (getField p "id") ∧
    (sendRPCStart s payload).2 =
      StartResult.waiting (jsonIDKey (getField payload "id")).1 ∧
    (sendRPCStart s payload).1.pending =
      pendingAdd s.pending (jsonIDKey (getField payload "id")).1 ∧
    ((readLine s2 line (some p)).2 =
      if (extractIDKey (some p)).2 = true ∧
          s2.pending.contains (extractIDKey (some p)).1 = true
      then some (extractIDKey (some p)).1 else none) := by
  have hstart := sendRPCStart_request s payload hdead hexc hm hid
  refine ⟨rfl, rfl, rfl, ?_, ?_, readLine_correlates s2 line p⟩
  · rw [hstart]
  · rw [hstart]

/-- Witness for C6 at concrete inputs. -/
theorem idKey_canonical_both_paths_witness :
    jsonIDKey (some (GoVal.str "w")) = ("w", true) ∧
    jsonIDKey (some (GoVal.num "w")) = ("w", true) ∧
    extractIDKey (some sampleResponse) = jsonIDKey (getField sampleResponse "id") ∧
    (sendRPCStart sampleSession samplePayload).2 =
      StartResult.waiting (jsonIDKey (getField samplePayload "id")).1 ∧
    (sendRPCStart sampleSession samplePayload).1.pending =
      pendingAdd sampleSession.pending (jsonIDKey (getField samplePayload "id")).1 ∧
    ((readLine sampleSession "resp" (some sampleResponse)).2 =
      if (extractIDKey (some sampleResponse)).2 = true ∧
          sampleSession.pending.contains (extractIDKey (some sampleResponse)).1 = true
      then some (extractIDKey (some sampleResponse)).1 else none) :=
  idKey_canonical_both_paths sampleSession sampleSession samplePayload
    sampleResponse "resp" "w" rfl (by decide) (by decide) (by decide)

/-- C9 counterexample: on a session whose initialize cache is set, an
`initialize` payload with a boolean id (present, neither string nor
number) is answered from the cache: the result is the synthesized
envelope, not the constant acknowledgement, and nothing is written to
stdin. -/
theorem nonIDRequest_counterexample :
    (sendRPCStart
      { dead := false, pending := [], hub := NewHub 4, stdinLines := [],
        initialized := true, initializeReply := "r" }
      [("method", GoVal.str "initialize"), ("id", GoVal.boolean true)]).2
      = StartResult.cachedInit
          { jsonrpc := "2.0", id := GoVal.boolean true, result := "r" } ∧
    (sendRPCStart
      { dead := false, pending := [], hub := NewHub 4, stdinLines := [],
        initialized := true, initializeReply := "r" }
      [("method", GoVal.str "initialize"), ("id", GoVal.boolean true)]).2
      ≠ StartResult.ack ∧
    (sendRPCStart
      { dead := false, pending := [], hub := NewHub 4, stdinLines := [],
        initialized := true, initializeReply := "r" }
      [("method", GoVal.str "initialize"), ("id", GoVal.boolean true)]).1.stdinLines
      = [] := by
  refine ⟨rfl, ?_, rfl⟩
  intro h
  rw [show (sendRPCStart
      { dead := false, pending := [], hub := NewHub 4, stdinLines := [],
        initialized := true, initializeReply := "r" }
      [("method", GoVal.str "initialize"), ("id", GoVal.boolean true)]).2
      = StartResult.cachedInit
          { jsonrpc := "2.0", id := GoVal.boolean true, result := "r" } from rfl] at h
  exact StartResult.noConfusion h

/-- C9 (amended): on a live session, a payload with a method and an id
that is neither a string nor a number is treated as a notification —
except when the initialize-cache fast path intercepts it (method
"initialize", id present, cache set): no pending sink is registered, the
serialized line is still written to stdin, the constant acknowledgement is
returned, and a child response carrying such an id never correlates, only
publishes. -/
theorem nonIDRequest_notification (s s2 : SessionState) (payload p2 : Payload)
    (v : GoVal) (line : String)
    (hdead : s.dead = false)
    (hidv : getField payload "id" = some v)
    (hv : isStrOrNum v = false)
    (hm : (getField payload "method").isSome = true)
    (hexc : ¬(methodString payload = "initialize" ∧ (getField payload "id").isSome
      ∧ s.initialized = true ∧ 0 < s.initializeReply.length))
    (hidp2 : getField p2 "id" = some v) :
    sendRPCStart s payload =
      ({ s with stdinLines := s.stdinLines ++ [payload] }, StartResult.ack) ∧
    (sendRPCStart s payload).1.pending = s.pending ∧
    (readLine s2 line (some p2)).2 = none ∧
    (readLine s2 line (some p2)).1.hub =
      (s2.hub.Publish { id := 0, type := "codex/stdout", data := line }).1 := by
  have hkey : jsonIDKey (getField payload "id") = ("", false) := by
    rw [hidv]
    exact jsonIDKey_not_usable v hv
  have hstart := sendRPCStart_notification s payload hdead hexc (by rw [hkey])
  have hext : extractIDKey (some p2) = ("", false) := by
    show jsonIDKey (getField p2 "id") = ("", false)
    rw [hidp2]
    exact jsonIDKey_not_usable v hv
  refine ⟨hstart, ?_, ?_, ?_⟩
  · rw [hstart]
  · simp [readLine, hext]
  · simp [readLine, hext]

/-- Witness for C9 at concrete inputs. -/
theorem nonIDRequest_notification_witness :
    sendRPCStart sampleSession
        [("method", GoVal.str "x"), ("id", GoVal.boolean true)] =
      ({ sampleSession with stdinLines :=
          sampleSession.stdinLines ++
            [[("method", GoVal.str "x"), ("id", GoVal.boolean true)]] },
       StartResult.ack) ∧
    (sendRPCStart sampleSession
        [("method", GoVal.str "x"), ("id", GoVal.boolean true)]).1.pending =
      sampleSession.pending ∧
    (readLine sampleSession "l" (some [("id", GoVal.boolean true)])).2 = none ∧
    (readLine sampleSession "l" (some [("id", GoVal.boolean true)])).1.hub =
      (sampleSession.hub.Publish
        { id := 0, type := "codex/stdout", data := "l" }).1 :=
  nonIDRequest_notification sampleSession sampleSession
    [("method", GoVal.str "x"), ("id", GoVal.boolean true)]
    [("id", GoVal.boolean true)] (GoVal.boolean true) "l"
    rfl rfl (by decide) (by decide) (by decide) rfl

/-! ## Session manager (`server/internal/codex`, manager side) -/

/-- Errors the manager's `Ensure` can return, as the bridge distinguishes
them (`errors.Is(err, ErrMaxSessions)`). -/
inductive MgrErr where
  | maxSessions
  | missingKey
  | spawnFailed (msg : String)
deriving DecidableEq, Repr

/-- The admission-control fields of `codex.Manager`: the atomic `running`
counter (`int64`) and the cap. -/
structure MgrCounter where
  running : Int
  maxSessions : Int
deriving DecidableEq, Repr

/-- `NewManager` sets the cap to `defaultMaxSessions = 16` and the counter
starts at zero. -/
def newManagerCounter : MgrCounter := { running := 0, maxSessions := 16 }

/-- `Manager.acquireSlot` run without interference: load the counter,
reject with `ErrMaxSessions` at or above the cap, else the compare-and-swap
succeeds and reserves a slot. -/
def acquireSlot (m : MgrCounter) : MgrCounter × Option MgrErr :=
  if m.maxSessions ≤ m.running then (m, some MgrErr.maxSessions)
  else ({ m with running := m.running + 1 }, none)

/-- One atomic step of the `running` counter under concurrency: a
successful `CompareAndSwap(cur, cur+1)` inside `acquireSlot` (which only
fires below the cap — at the cap `acquireSlot` returns before attempting
it) or an `Add(-1)` (spawn failure, or the on-dead callback). Failed CAS
attempts and loads do not change the counter. -/
inductive CounterStep (max : Int) : Int → Int → Prop
  | cas (cur : Int) (h : cur < max) : CounterStep max cur (cur + 1)
  | dec (cur : Int) : CounterStep max cur (cur - 1)

/-- The visible state of one `clientEntry`'s session slot. -/
structure EntryState where
  hasSession : Bool
  sessionDead : Bool
  hasEverRun : Bool
deriving DecidableEq, Repr

/-- `clientEntry.ensure`: reuse a live session; otherwise reserve a slot
(propagating `ErrMaxSessions`), then spawn — on spawn failure the slot is
released again with `Add(-1)`. -/
def clientEntryEnsure (m : MgrCounter) (e : EntryState) (spawnOk : Bool) :
    MgrCounter × EntryState × Option MgrErr :=
  if e.hasSession && !e.sessionDead then (m, e, none)
  else
    match acquireSlot m with
    | (m1, some err) => (m1, e, some err)
    | (m1, none) =>
      if spawnOk then
        (m1, { e with hasSession := true, sessionDead := false,
                      hasEverRun := true }, none)
      else
        ({ m1 with running := m1.running - 1 }, e,
          some (MgrErr.spawnFailed "spawn"))

/-- `Session.markDead` as seen by the counter: the `sync.Once` gate makes
the body — set the dead flag and run the on-dead callback, which does
`running.Add(-1)` — execute at most once. -/
structure DeadLifecycle where
  dead : Bool
  deadOnceDone : Bool
  running : Int
deriving DecidableEq, Repr

def markDead (s : DeadLifecycle) : DeadLifecycle :=
  if s.deadOnceDone then s
  else { dead := true, deadOnceDone := true, running := s.running - 1 }

/-- C2: the live-session count never exceeds the cap, under any
interleaving of the atomic counter steps; `acquireSlot` rejects with
`MaxSessions` at the cap and otherwise reserves a slot by incrementing;
`ensure` propagates `MaxSessions`, and on spawn failure releases the
reserved slot so the counter is back where it started; the on-dead
decrement runs exactly once however often `markDead` is called; the
default cap is 16. -/
theorem session_cap_invariant :
    (∀ (max c0 c : Int), c0 ≤ max →
      Relation.ReflTransGen (CounterStep max) c0 c → c ≤ max) ∧
    (∀ m : MgrCounter, m.maxSessions ≤ m.running →
      acquireSlot m = (m, some MgrErr.maxSessions)) ∧
    (∀ m : MgrCounter, m.running < m.maxSessions →
      acquireSlot m = ({ m with running := m.running + 1 }, none)) ∧
    (∀ (m : MgrCounter) (e : EntryState) (spawnOk : Bool),
      (e.hasSession && !e.sessionDead) = false → m.maxSessions ≤ m.running →
      clientEntryEnsure m e spawnOk = (m, e, some MgrErr.maxSessions)) ∧
    (∀ (m : MgrCounter) (e : EntryState),
      (e.hasSession && !e.sessionDead) = false → m.running < m.maxSessions →
      (clientEntryEnsure m e false).1.running = m.running ∧
      (clientEntryEnsure m e false).2.2 = some (MgrErr.spawnFailed "spawn")) ∧
    (∀ s : DeadLifecycle, s.deadOnceDone = false →
      (markDead s).running = s.running - 1) ∧
    (∀ s : DeadLifecycle, markDead (markDead s) = markDead s) ∧
    newManagerCounter.maxSessions = 16 ∧ newManagerCounter.running = 0 := by
  refine ⟨?_, ?_, ?_, ?_, ?_, ?_, ?_, rfl, rfl⟩
  · intro max c0 c h0 hreach
    induction hreach with
    | refl => exact h0
    | tail _ hstep ih =>
      cases hstep with
      | cas h => omega
      | dec => omega
  · intro m h
    simp [acquireSlot, h]
  · intro m h
    rw [acquireSlot, if_neg (by omega)]
  · intro m e ok he h
    unfold clientEntryEnsure
    rw [if_neg (by simp [he])]
    rw [acquireSlot, if_pos h]
  · intro m e he h
    unfold clientEntryEnsure
    rw [if_neg (by simp [he])]
    rw [acquireSlot, if_neg (by omega)]
    exact ⟨by simp, rfl⟩
  · intro s h
    simp [markDead, h]
  · intro s
    unfold markDead
    by_cases h : s.deadOnceDone = true
    · simp [h]
    · simp [h]

/-- Witness for C2 at concrete inputs. -/
theorem session_cap_invariant_witness :
    (1 : Int) ≤ 16 ∧
    acquireSlot { running := 16, maxSessions := 16 } =
      ({ running := 16, maxSessions := 16 }, some MgrErr.maxSessions) ∧
    acquireSlot { running := 3, maxSessions := 16 } =
      ({ running := 4, maxSessions := 16 }, none) ∧
    clientEntryEnsure { running := 16, maxSessions := 16 }
        { hasSession := false, sessionDead := false, hasEverRun := false } true =
      ({ running := 16, maxSessions := 16 },
        { hasSession := false, sessionDead := false, hasEverRun := false },
        some MgrErr.maxSessions) ∧
    (clientEntryEnsure { running := 3, maxSessions := 16 }
        { hasSession := false, sessionDead := false, hasEverRun := false }
        false).1.running = 3 ∧
    (markDead { dead := false, deadOnceDone := false, running := 5 }).running
      = 5 - 1 ∧
    markDead (markDead { dead := false, deadOnceDone := false, running := 5 })
      = markDead { dead := false, deadOnceDone := false, running := 5 } := by
  refine ⟨?_, ?_, ?_, ?_, ?_, ?_, ?_⟩
  · exact session_cap_invariant.1 16 0 1 (by decide)
      (Relation.ReflTransGen.single (CounterStep.cas 0 (by decide)))
  · exact session_cap_invariant.2.1 _ (by decide)
  · exact session_cap_invariant.2.2.1 _ (by decide)
  · exact session_cap_invariant.2.2.2.1 _ _ true (by decide) (by decide)
  · exact (session_cap_invariant.2.2.2.2.1 _ _ (by decide) (by decide)).1
  · exact session_cap_invariant.2.2.2.2.2.1 _ (by decide)
  · exact session_cap_invariant.2.2.2.2.2.2.1 _

/-- The per-client entry as the manager map stores it (`session` pointer
abstracted to whether it is non-nil and whether that session is dead). -/
structure ClientEntry where
  key : String
  hub : Hub
  hasSession : Bool
  sessionDead : Bool
  hasEverRun : Bool
deriving DecidableEq, Repr

/-- The manager's map (association list in insertion order) plus the
admission-control fields. -/
structure ManagerState where
  sessions : List (String × ClientEntry)
  running : Int
  maxSessions : Int
deriving DecidableEq, Repr

/-- `Manager.getOrCreate`: return the existing entry, else insert a fresh
entry with a fresh hub of capacity 1024 and no session. -/
def getOrCreate (m : ManagerState) (clientKey : String) :
    ManagerState × ClientEntry :=
  match m.sessions.find? fun kv => kv.1 == clientKey with
  | some kv => (m, kv.2)
  | none =>
    let entry : ClientEntry :=
      { key := clientKey, hub := NewHub 1024, hasSession := false,
        sessionDead := false, hasEverRun := false }
    ({ m with sessions := m.sessions ++ [(clientKey, entry)] }, entry)

/-- Go `strings.TrimSpace`: strip leading and trailing whitespace. -/
def trimSpace (s : String) : String :=
  String.mk
    (((s.data.dropWhile Char.isWhitespace).reverse.dropWhile
      Char.isWhitespace).reverse)

/-- `Manager.Events`: trim the key; an empty key gets a throwaway hub
without touching the map; otherwise `getOrCreate` and return the entry's
hub.  No session is ever spawned. -/
def managerEvents (m : ManagerState) (clientKey : String) :
    ManagerState × Hub :=
  let k := trimSpace clientKey
  if k = "" then (m, NewHub 256)
  else
    let r := getOrCreate m k
    (r.1, r.2.hub)

/-- C8: for every non-empty client key, `Events` creates the ClientEntry
and its hub when missing and returns the existing hub otherwise; it never
spawns a child: the running count, the cap, every existing entry (and its
session pointer) are unchanged, and a created entry has no session. -/
theorem events_no_spawn (m : ManagerState) (clientKey : String)
    (hk : trimSpace clientKey ≠ "") :
    (managerEvents m clientKey).1.running = m.running ∧
    (managerEvents m clientKey).1.maxSessions = m.maxSessions ∧
    (∀ kv, kv ∈ m.sessions → kv ∈ (managerEvents m clientKey).1.sessions) ∧
    ((m.sessions.find? fun kv => kv.1 == trimSpace clientKey).isSome →
      (managerEvents m clientKey).1 = m ∧
      ∀ kv, (m.sessions.find? fun kv => kv.1 == trimSpace clientKey) = some kv →
        (managerEvents m clientKey).2 = kv.2.hub) ∧
    ((m.sessions.find? fun kv => kv.1 == trimSpace clientKey) = none →
      (managerEvents m clientKey).1.sessions =
        m.sessions ++ [(trimSpace clientKey,
          { key := trimSpace clientKey, hub := NewHub 1024, hasSession := false,
            sessionDead := false, hasEverRun := false })] ∧
      (managerEvents m clientKey).2 = NewHub 1024) := by
  unfold managerEvents
  simp only [hk, if_false]
  cases hfind : m.sessions.find? fun kv => kv.1 == trimSpace clientKey with
  | some kv =>
    have hred : getOrCreate m (trimSpace clientKey) = (m, kv.2) := by
      unfold getOrCreate
      rw [hfind]
    rw [hred]
    refine ⟨rfl, rfl, fun kv2 h => h, fun _ => ⟨rfl, fun kv2 hkv2 => ?_⟩,
      fun h => ?_⟩
    · obtain rfl := Option.some.inj hkv2
      rfl
    · exact Option.noConfusion h
  | none =>
    have hred : getOrCreate m (trimSpace clientKey) =
        ({ m with sessions := m.sessions ++ [(trimSpace clientKey,
            { key := trimSpace clientKey, hub := NewHub 1024,
              hasSession := false, sessionDead := false,
              hasEverRun := false })] },
         { key := trimSpace clientKey, hub := NewHub 1024,
           hasSession := false, sessionDead := false,
           hasEverRun := false }) := by
      unfold getOrCreate
      rw [hfind]
    rw [hred]
    refine ⟨rfl, rfl, fun kv h => List.mem_append_left _ h, fun h => ?_,
      fun _ => ⟨rfl, rfl⟩⟩
    simp at h

/-- Witness for C8 at a concrete manager and key. -/
theorem events_no_spawn_witness :
    (managerEvents { sessions := [], running := 0, maxSessions := 16 } " a ").1.running
      = 0 ∧
    (managerEvents { sessions := [], running := 0, maxSessions := 16 } " a ").1.maxSessions
      = 16 ∧
    ((([] : List (String × ClientEntry)).find? fun kv => kv.1 == trimSpace " a ") = none →
      (managerEvents { sessions := [], running := 0, maxSessions := 16 } " a ").1.sessions
        = [] ++ [(trimSpace " a ",
            { key := trimSpace " a ", hub := NewHub 1024, hasSession := false,
              sessionDead := false, hasEverRun := false })] ∧
      (managerEvents { sessions := [], running := 0, maxSessions := 16 } " a ").2
        = NewHub 1024) := by
  have h := events_no_spawn { sessions := [], running := 0, maxSessions := 16 }
    " a " (by decide)
  exact ⟨h.1, h.2.1, h.2.2.2.2⟩

/-! ## HTTP bridge (`server/internal/httpx/httpx.go`) -/

/-- What a handler writes: status, content type, the error envelope's code
when the JSON error helper produced the body, and the raw body on
success. -/
structure HTTPResponse where
  status : Nat
  contentType : String
  errorCode : Option String
  body : Option String
deriving DecidableEq, Repr

/-- `writeJSONError`: JSON content type, the given status and an error
envelope carrying the given code. -/
def writeJSONError (status : Nat) (code : String) : HTTPResponse :=
  { status := status, contentType := "application/json",
    errorCode := some code, body := none }

/-- `writeManagerError`: `ErrMaxSessions` maps to 429 `max_sessions`,
every other ensure error (nil included) to 500 `internal_error`. -/
def writeManagerError (err : Option MgrErr) : HTTPResponse :=
  match err with
  | none => writeJSONError 500 "internal_error"
  | some MgrErr.maxSessions => writeJSONError 429 "max_sessions"
  | some _ => writeJSONError 500 "internal_error"

/-- `Server.handleRPC` as a function of its decision inputs: the HTTP
method, the identity provider's verdict, whether the (10 MiB-limited) body
read succeeded and the bytes read, the `decodeJSON` outcome, the
`Manager.Ensure` outcome, and the `SendRPC` outcome.  Mirrors the
source's early-return ladder. -/
def handleRPC (httpMethod : String) (identityRes : Except String String)
    (bodyReadOk : Bool) (body : String) (decoded : Option Payload)
    (ensureRes : Option MgrErr) (rpcRes : Except String String) :
    HTTPResponse :=
  if httpMethod ≠ "POST" then writeJSONError 405 "method_not_allowed"
  else
    match identityRes with
    | Except.error _ => writeJSONError 401 "unauthorized"
    | Except.ok _ =>
      if bodyReadOk = false then writeJSONError 400 "bad_request"
      else if body = "" then writeJSONError 400 "bad_request"
      else
        match decoded with
        | none => writeJSONError 400 "bad_request"
        | some _ =>
          match ensureRes with
          | some e => writeManagerError (some e)
          | none =>
            match rpcRes with
            | Except.error _ => writeJSONError 500 "rpc_failed"
            | Except.ok bytes =>
              { status := 200, contentType := "application/json",
                errorCode := none, body := some bytes }

/-- C7: for `POST /rpc`, identity failure gives 401; an empty body, a read
failure or invalid JSON give 400; `MaxSessions` gives 429 with code
`max_sessions`; any other ensure failure gives 500 `internal_error`; a
`SendRPC` error gives 500 `rpc_failed`; and on success the returned bytes
are written with status 200 and content type `application/json`. -/
theorem handleRPC_status_mapping (msg key bytes body : String) (p : Payload)
    (dec : Option Payload) (bro : Bool) (er : Option MgrErr)
    (rr : Except String String) (hbody : body ≠ "") :
    handleRPC "POST" (Except.error msg) bro body dec er rr =
      writeJSONError 401 "unauthorized" ∧
    handleRPC "POST" (Except.ok key) false body dec er rr =
      writeJSONError 400 "bad_request" ∧
    handleRPC "POST" (Except.ok key) bro "" dec er rr =
      writeJSONError 400 "bad_request" ∧
    handleRPC "POST" (Except.ok key) true body none er rr =
      writeJSONError 400 "bad_request" ∧
    handleRPC "POST" (Except.ok key) true body (some p)
        (some MgrErr.maxSessions) rr =
      writeJSONError 429 "max_sessions" ∧
    handleRPC "POST" (Except.ok key) true body (some p)
        (some (MgrErr.spawnFailed msg)) rr =
      writeJSONError 500 "internal_error" ∧
    handleRPC "POST" (Except.ok key) true body (some p)
        (some MgrErr.missingKey) rr =
      writeJSONError 500 "internal_error" ∧
    handleRPC "POST" (Except.ok key) true body (some p) none
        (Except.error msg) =
      writeJSONError 500 "rpc_failed" ∧
    handleRPC "POST" (Except.ok key) true body (some p) none
        (Except.ok bytes) =
      { status := 200, contentType := "application/json",
        errorCode := none, body := some bytes } ∧
    writeJSONError 429 "max_sessions" =
      { status := 429, contentType := "application/json",
        errorCode := some "max_sessions", body := none } := by
  have hb : ¬(body = "") := hbody
  refine ⟨rfl, ?_, ?_, ?_, ?_, ?_, ?_, ?_, ?_, rfl⟩ <;>
    simp [handleRPC, writeManagerError, hb]

/-- Witness for C7 at concrete inputs. -/
theorem handleRPC_status_mapping_witness :
    handleRPC "POST" (Except.error "boom") true "b" none none
        (Except.ok "resp") =
      writeJSONError 401 "unauthorized" ∧
    handleRPC "POST" (Except.ok "k") true "" none none (Except.ok "resp") =
      writeJSONError 400 "bad_request" ∧
    handleRPC "POST" (Except.ok "k") true "b" (some samplePayload)
        (some MgrErr.maxSessions) (Except.ok "resp") =
      writeJSONError 429 "max_sessions" ∧
    handleRPC "POST" (Except.ok "k") true "b" (some samplePayload) none
        (Except.ok "resp") =
      { status := 200, contentType := "application/json",
        errorCode := none, body := some "resp" } := by
  have h := handleRPC_status_mapping "boom" "k" "resp" "b" samplePayload none
    true (some MgrErr.maxSessions) (Except.ok "resp") (by decide)
  exact ⟨h.1, h.2.2.1, h.2.2.2.2.1, h.2.2.2.2.2.2.2.2.1⟩

end CliMate
